import Mathlib

/-!
Verification development for the auto-description configlet builder
(`src/auto-description/auto-description.py`).

The script synthesizes interface descriptions from LLDP / MAC-table data and
maintains an OUI-to-organization cache persisted in a remote configlet store.
Pure logic is embedded directly; the device transport, the HTTPS fetch and the
remote store are modelled as explicit inputs / state.  Machine traffic is all
textual, so strings are Lean `String`s and 48-bit MAC values are `Nat`s taken
modulo `2 ^ 48` where relevant.
-/

namespace AutoDesc

/-- Python exceptions that can escape the embedded fragments.
`addrFormatError` is netaddr's invalid-address error raised by `netaddr.EUI`;
`indexError` is raised by the list indexing `split(" ")[2]`. -/
inductive PyErr where
  | addrFormatError
  | indexError
  deriving DecidableEq, Repr

/-- `OUI24_MASK = 0xFFFFFF000000` from the source. -/
def OUI24_MASK : Nat := 0xFFFFFF000000

/-- `OUI28_MASK = 0xFFFFFFF00000` from the source. -/
def OUI28_MASK : Nat := 0xFFFFFFF00000

/-- `OUI36_MASK = 0xFFFFFFFFF000` from the source. -/
def OUI36_MASK : Nat := 0xFFFFFFFFF000

/-- `SECONDS_PER_24H = 86400` from the source. -/
def SECONDS_PER_24H : Int := 86400

/-- `EXTERNAL_OUI_LOOKUP = True` from the source. -/
def EXTERNAL_OUI_LOOKUP : Bool := true

/-- Uppercase hexadecimal digit for a nibble, as `'%X'` formatting produces. -/
def hexDigit (n : Nat) : Char :=
  if n < 10 then Char.ofNat (48 + n) else Char.ofNat (55 + n)

/-- Is `c` one of `0-9A-F`?  (The character class of `OUI_PATTERN`.) -/
def isHexUpper (c : Char) : Bool :=
  (decide ('0' ≤ c) && decide (c ≤ '9')) || (decide ('A' ≤ c) && decide (c ≤ 'F'))

/-- Numeric value of an uppercase hexadecimal digit. -/
def hexVal (c : Char) : Nat :=
  if c.toNat ≤ 57 then c.toNat - 48 else c.toNat - 55

/-- `str(eui)` under the `netaddr.mac_bare` dialect: twelve uppercase
hexadecimal digits of the 48-bit value, no separators. -/
def macBare (v : Nat) : String :=
  String.mk ((List.range 12).map (fun i => hexDigit ((v >>> (44 - 4 * i)) % 16)))

/-- The `", ".join` of the last six bare hex digits grouped by two with `":"`,
as computed at the end of `DUT.org_from_mac`
(`":".join(str(mac_address)[-6:][i:i+2] for i in range(0, 6, 2))`). -/
def last_six (v : Nat) : String :=
  let t := (macBare v).drop 6
  t.take 2 ++ ":" ++ ((t.drop 2).take 2) ++ ":" ++ t.drop 4

/-- Value of a two-digit uppercase-hex octet. -/
def octVal (g : List Char) : Nat :=
  g.foldl (fun a c => a * 16 + hexVal c) 0

/-- Split a character list at every occurrence of the separator character
(Python's `str.split` for a one-character separator). -/
def splitChar (sep : Char) : List Char → List (List Char)
  | [] => [[]]
  | c :: rest =>
    if c = sep then [] :: splitChar sep rest
    else
      match splitChar sep rest with
      | g :: gs => (c :: g) :: gs
      | [] => [[c]]

/-- The colon grouping netaddr performs on colon-delimited addresses. -/
def splitColon : List Char → List (List Char) :=
  splitChar ':'

/-- `netaddr.EUI` applied to the colon-grouped strings that occur in this
program: a string of exactly 6 (EUI-48) or 8 (EUI-64) colon-separated
two-digit uppercase-hex octets parses to its integer value; any other
colon-grouped shape (e.g. 4 or 5 octets) raises `AddrFormatError`.
(The library also accepts other textual formats; none are reachable here,
since every input comes from `OUI_PATTERN` matches, optionally extended by
`":00:00:00"`.) -/
def euiParse (s : String) : Except PyErr Nat :=
  let groups := splitColon s.data
  let wellFormed := groups.all (fun g => g.length == 2 && g.all isHexUpper)
  if (groups.length == 6 || groups.length == 8) && wellFormed then
    .ok (groups.foldl (fun a g => a * 256 + octVal g) 0)
  else
    .error .addrFormatError

/-- Python-dict lookup on an insertion-ordered association list (the first
binding of the key; `mergeEntry` keeps keys unique). -/
def dictLookup : List (String × String) → String → Option String
  | [], _ => none
  | e :: rest, k => if e.1 == k then some e.2 else dictLookup rest k

/-- Python-dict update of an existing key (value replaced in place). -/
def dictSet (db : List (String × String)) (k v : String) : List (String × String) :=
  db.map (fun e => if e.1 == k then (k, v) else e)

/-- One iteration of the merge loop of `DUT.oui_list._download`
(`if oui not in db or db[oui] == "IEEERegi": db[oui] = org`). -/
def mergeEntry (db : List (String × String)) (oui org : String) :
    List (String × String) :=
  match dictLookup db oui with
  | none => db ++ [(oui, org)]
  | some existing => if existing == "IEEERegi" then dictSet db oui org else db

/-- The `for mask in (OUI36_MASK, OUI28_MASK, OUI24_MASK)` loop of
`DUT.org_from_mac`: mask the MAC value, re-encode it bare, and return the
first hit in the mapping. -/
def ouiScan (db : List (String × String)) (v : Nat) : List Nat → Option String
  | [] => none
  | m :: ms =>
    match dictLookup db (macBare (v &&& m)) with
    | some o => some o
    | none => ouiScan db v ms

/-- `DUT.org_from_mac` after the input string has parsed to the 48-bit value
`v`.  `db` is the mapping returned by `oui_list`; `reg` models the offline
`mac_address.oui.registration().org` lookup (`none` = `NotRegisteredError`).
The source reads the module constant `EXTERNAL_OUI_LOOKUP`; it is passed here
as the argument `ext`. -/
def org_from_mac (ext : Bool) (db : List (String × String))
    (reg : Nat → Option String) (v : Nat) : String :=
  let org := "Unknown"
  let org :=
    if ext then
      match ouiScan db v [OUI36_MASK, OUI28_MASK, OUI24_MASK] with
      | some o => o
      | none => org
    else
      match reg v with
      | some o => o
      | none => org
  org ++ ", " ++ last_six v

/-- Consume two uppercase-hex digits (`[0-9A-F]{2}`), returning the rest. -/
def hexPair : List Char → Option (List Char)
  | a :: b :: rest => if isHexUpper a && isHexUpper b then some rest else none
  | _ => none

/-- Consume `k` repetitions of `([0-9A-F]{2}[:])`, returning the rest. -/
def repGroups : Nat → List Char → Option (List Char)
  | 0, cs => some cs
  | k + 1, cs =>
    match hexPair cs with
    | some (':' :: rest) => repGroups k rest
    | _ => none

/-- The optional `(\/\d+)?` of `OUI_PATTERN`: consume `/` followed by one or
more digits if present, else consume nothing.  (When `/` is present without a
digit the group cannot match, and the following mandatory `\s` then fails on
`/` itself, exactly as when nothing is consumed here.) -/
def slashOpt (cs : List Char) : List Char :=
  match cs with
  | '/' :: rest =>
    let ds := rest.takeWhile Char.isDigit
    if ds.isEmpty then cs else rest.drop ds.length
  | _ => cs

/-- Try to match `OUI_PATTERN` at the start of the line with exactly `k + 1`
colon-grouped octets in the `oui` group, i.e. `k` repetitions of
`([0-9A-F]{2}[:])` followed by `([0-9A-F]{2})`, then `(\/\d+)?`, one
whitespace, and a maximal non-empty run of non-whitespace as `org`. -/
def tryK (cs : List Char) (k : Nat) : Option (String × String) := do
  let r1 ← repGroups k cs
  let r2 ← hexPair r1
  match slashOpt r2 with
  | c :: rest =>
    if c.isWhitespace then
      let orgCs := rest.takeWhile (fun ch => !ch.isWhitespace)
      if orgCs.isEmpty then none
      else some (String.mk (cs.take (3 * k + 2)), String.mk orgCs)
    else none
  | [] => none

/-- Match one line against
`OUI_PATTERN = ^(?P<oui>([0-9A-F]{2}[:]){2,5}([0-9A-F]{2}))(\/\d+)?\s(?P<org>\S+).*$`,
returning the `oui` and `org` groups.  The greedy `{2,5}` repetition
backtracks from five repetitions down to two. -/
def ouiMatch (line : String) : Option (String × String) :=
  tryK line.data 5 <|> tryK line.data 4 <|> tryK line.data 3 <|> tryK line.data 2

/-- The parse/merge loop of `DUT.oui_list._download`: for each match, a
3-octet `oui` (string length 8) is extended with `":00:00:00"`, the result is
parsed by `netaddr.EUI` (an `AddrFormatError` aborts the whole pass), encoded
bare, and merged into the accumulator `db`. -/
def processEntries : List (String × String) → List (String × String) →
    Except PyErr (List (String × String))
  | [], db => .ok db
  | (oui, org) :: rest, db =>
    let oui2 := if oui.length == 8 then oui ++ ":00:00:00" else oui
    match euiParse oui2 with
    | .error e => .error e
    | .ok v => processEntries rest (mergeEntry db (macBare v) org)

/-- `DUT.oui_list._download`.  `resp` is the `curl` result: `none` when the
transport produced no value (`KeyError` path), otherwise the body; an empty
body is falsy in `if not response`.  `re.finditer` with `re.MULTILINE` over
the body is the per-line application of `ouiMatch` (each match is anchored at
a line start and `.*$` consumes the rest of its line). -/
def download (resp : Option String) : Except PyErr (List (String × String)) :=
  match resp with
  | none => .ok []
  | some r =>
    if r == "" then .ok []
    else
      processEntries
        (((splitChar '\n' r.data).map (fun l => String.mk l)).filterMap ouiMatch) []

/-- `json.dumps` of a string-to-string dict in insertion order, with the
default separators `", "` and `": "`.  (Escaping of special characters inside
strings is not modelled; no key or organization used in the development
contains one.) -/
def jsonDumps (d : List (String × String)) : String :=
  "\x7b" ++
    String.intercalate ", "
      (d.map (fun e => "\"" ++ e.1 ++ "\": \"" ++ e.2 ++ "\"")) ++
    "\x7d"

/-- Read one JSON string body up to its closing quote. -/
def takeJsonStr : List Char → Option (String × List Char)
  | [] => none
  | c :: rest =>
    if c == '"' then some ("", rest)
    else
      match takeJsonStr rest with
      | some (s, r) => some (String.mk (c :: s.data), r)
      | none => none

/-- Parse the comma-separated `"k": "v"` entries of a serialized dict, up to
the closing brace.  `fuel` bounds the recursion by the input length. -/
def parseEntriesAux : Nat → List Char → Option (List (String × String))
  | 0, _ => none
  | fuel + 1, cs =>
    match cs with
    | '"' :: rest =>
      match takeJsonStr rest with
      | none => none
      | some (k, r1) =>
        match r1 with
        | ':' :: ' ' :: '"' :: r2 =>
          match takeJsonStr r2 with
          | none => none
          | some (v, r3) =>
            match r3 with
            | ',' :: ' ' :: r4 =>
              match parseEntriesAux fuel r4 with
              | some es => some ((k, v) :: es)
              | none => none
            | ['\x7d'] => some [(k, v)]
            | _ => none
        | _ => none
    | _ => none

/-- `json.loads` on the strings this program stores: the exact output format
of `jsonDumps` (including `"\x7b\x7d"` for the empty dict).  Malformed input
raises a `ValueError` in Python; no modelled run produces one, so failures
fall back to the empty dict here. -/
def jsonLoads (s : String) : List (String × String) :=
  match s.data with
  | ['\x7b', '\x7d'] => []
  | '\x7b' :: rest => (parseEntriesAux rest.length rest).getD []
  | _ => []

/-- The remote configlet object named `oui.json`: its store key, its
last-modified timestamp in milliseconds (`dateTimeInLongFormat`), and its
text content. -/
structure Configlet where
  key : String
  dateTimeInLongFormat : Int
  config : String
  deriving DecidableEq, Repr

/-- The store holds at most the one configlet this program uses. -/
abbrev Store := Option Configlet

/-- `configlet_exists`: `(key, dateTimeInLongFormat)` when present, the falsy
`(False, 0)` otherwise. -/
def configlet_exists (s : Store) : Option String × Int :=
  match s with
  | some c => (some c.key, c.dateTimeInLongFormat)
  | none => (none, 0)

/-- `configlet_get`: the stored text, or the literal `"\x7b\x7d"` fallback. -/
def configlet_get (s : Store) : String :=
  match s with
  | some c => c.config
  | none => "\x7b\x7d"

/-- `configlet_add`: the server creates the object, assigning it a fresh key
and the current time as its last-modified timestamp. -/
def configlet_add (now : Int) (newKey : String) (data : String) : Store :=
  some ⟨newKey, now, data⟩

/-- `configlet_update`: the server replaces the content of the object with
the given key and refreshes its last-modified timestamp. -/
def configlet_update (now : Int) (k : String) (data : String) : Store :=
  some ⟨k, now, data⟩

/-- `is_24h_old`: the source compares
`(utcnow() - utcfromtimestamp(timestamp / 1000)).total_seconds()` with
`SECONDS_PER_24H`; with both instants expressed in milliseconds and exact
arithmetic this is `now - timestamp > 86400 * 1000`. -/
def is_24h_old (now timestamp : Int) : Bool :=
  now - timestamp > SECONDS_PER_24H * 1000

/-- The refresh condition of `DUT.oui_list`:
`(not key) or (timestamp and is_24h_old(timestamp))`
(a zero timestamp is falsy). -/
def update_needed (key : Option String) (timestamp now : Int) : Bool :=
  key.isNone || (!(timestamp == 0) && is_24h_old now timestamp)

/-- `DUT.oui_list`.  `now` is the current time in milliseconds, `newKey` the
key the server would assign on `configlet_add`, `resp` the `curl` response
for the registry document, and `s` the store state.  Returns the mapping
handed back to the caller together with the store state after the run; an
`AddrFormatError` from the parse aborts the refresh and propagates. -/
def oui_list (now : Int) (newKey : String) (resp : Option String) (s : Store) :
    Except PyErr (List (String × String) × Store) :=
  let key := (configlet_exists s).1
  let timestamp := (configlet_exists s).2
  if update_needed key timestamp now then
    match download resp with
    | .error err => .error err
    | .ok d =>
      let db := jsonDumps d
      let s' :=
        if db != "" && key.isNone then configlet_add now newKey db
        else if db != "" && key.isSome then configlet_update now (key.getD "") db
        else s
      .ok (jsonLoads (configlet_get s'), s')
  else
    .ok (jsonLoads (configlet_get s), s)

/-- `is_mac`: does the string parse as a hardware address?  `parse` is the
`netaddr.EUI` string parser (`none` = `AddrFormatError`). -/
def is_mac (parse : String → Option Nat) (s : String) : Bool :=
  (parse s).isSome

/-- `DUT.org_from_mac` on its raw string argument: `netaddr.EUI(mac_address)`
raises `AddrFormatError` for an invalid address before any lookup is
attempted; on success the resolution proceeds on the parsed value. -/
def org_from_mac_str (parse : String → Option Nat) (ext : Bool)
    (db : List (String × String)) (reg : Nat → Option String) (s : String) :
    Except PyErr String :=
  match parse s with
  | none => .error .addrFormatError
  | some v => .ok (org_from_mac ext db reg v)

/-- Is the first list a prefix of the second? -/
def isPre : List Char → List Char → Bool
  | [], _ => true
  | _ :: _, [] => false
  | a :: as, b :: bs => a == b && isPre as bs

/-- Python's `str.startswith`. -/
def strStartsWith (s p : String) : Bool :=
  isPre p.data s.data

/-- Lexicographic code-point order on strings, as Python's `sorted` key
comparison uses. -/
def charListLe : List Char → List Char → Bool
  | [], _ => true
  | _ :: _, [] => false
  | a :: as, b :: bs => if a < b then true else if b < a then false else charListLe as bs

/-- `neighborInterfaceInfo` of an LLDP neighbor record. -/
structure NeighborInterfaceInfo where
  interfaceIdType : String
  interfaceId_v2 : String
  interfaceDescription : String
  deriving DecidableEq, Repr

/-- One LLDP neighbor: `systemName` may be absent (`KeyError` caught by the
fallback to `chassisId`). -/
structure Neighbor where
  systemName : Option String
  chassisId : String
  neighborInterfaceInfo : NeighborInterfaceInfo
  deriving DecidableEq, Repr

/-- One interface record as assembled by `main`: the attached LLDP neighbors
and MAC-table entries default to empty (`interface.get(..., [])`), each
MAC-table entry contributing its `macAddress` string;
`interfaceMembership` is absent for non-members (`KeyError` caught). -/
structure Interface where
  name : String
  lldp_neighbors : List Neighbor
  mac_address_table : List String
  interfaceMembership : Option String
  deriving DecidableEq, Repr

/-- The Jinja template: `interface <name>` then the upper-cased
description line. -/
def TEMPLATE_render (interface description : String) : String :=
  "interface " ++ interface ++ "\n   description " ++ description.toUpper ++ "\n"

/-- The final `if description: print(...)` of the loop body: a `None` or
empty description is falsy and prints nothing.  Printed blocks are modelled
as `(interface, description)` pairs fed to `TEMPLATE_render`. -/
def emitFinal (name d : String) : List (String × String) :=
  if d == "" then [] else [(name, d)]

/-- One iteration of the interface loop of `auto_description`.  `resolve` is
`dut.org_from_mac(·, vrf)`, `is_macF` is `is_mac`, and `cfg` gives the
`comments` of the `interface <name>` running-config section.  Returns the
blocks printed for this interface and the updated `port_channels` set; a
resolver failure, or the `IndexError` of `interfaceMembership.split(" ")[2]`
on a short membership string, propagates. -/
def describe_interface (resolve : String → Except PyErr String)
    (is_macF : String → Bool) (cfg : String → List String)
    (pcs : List String) (itf : Interface) :
    Except PyErr (List (String × String) × List String) :=
  if !(strStartsWith itf.name "Ethernet") && !(strStartsWith itf.name "Management") then
    .ok ([], pcs)
  else if (cfg itf.name).contains "no auto-description" then
    .ok ([], pcs)
  else if itf.lldp_neighbors.length == 1 then
    match itf.lldp_neighbors with
    | neighbor :: _ =>
      let d0 :=
        match neighbor.systemName with
        | some s => s
        | none => neighbor.chassisId
      if is_macF d0 then
        match resolve d0 with
        | .error e => .error e
        | .ok d => .ok (emitFinal itf.name d, pcs)
      else
        let nid :=
          if neighbor.neighborInterfaceInfo.interfaceIdType == "interfaceName" then
            neighbor.neighborInterfaceInfo.interfaceId_v2
          else
            neighbor.neighborInterfaceInfo.interfaceDescription
        let short :=
          match splitChar '.' d0.data with
          | h :: _ => String.mk h
          | [] => ""
        match itf.interfaceMembership with
        | some m =>
          match ((splitChar ' ' m.data).map (fun l => String.mk l)).get? 2 with
          | none => .error .indexError
          | some pc =>
            let out1 := if pcs.contains pc then [] else [(pc, short)]
            let pcs' := if pcs.contains pc then pcs else pc :: pcs
            .ok (out1 ++ emitFinal itf.name (short ++ ", " ++ nid), pcs')
        | none =>
          .ok (emitFinal itf.name (short ++ ", " ++ nid), pcs)
    | [] => .ok ([], pcs)
  else if itf.mac_address_table.length == 1 then
    match itf.mac_address_table with
    | mac :: _ =>
      match resolve mac with
      | .error e => .error e
      | .ok d => .ok (emitFinal itf.name d, pcs)
    | [] => .ok ([], pcs)
  else
    .ok ([], pcs)

/-- Insert an interface into a name-sorted list. -/
def insertByName (i : Interface) : List Interface → List Interface
  | [] => [i]
  | j :: rest =>
    if charListLe j.name.data i.name.data then j :: insertByName i rest
    else i :: j :: rest

/-- `sorted(interfaces.values(), key=lambda x: x["name"])`. -/
def sortByName (l : List Interface) : List Interface :=
  l.foldr insertByName []

/-- The interface loop of `auto_description`, threading the `port_channels`
set and concatenating the printed blocks. -/
def auto_description_loop (resolve : String → Except PyErr String)
    (is_macF : String → Bool) (cfg : String → List String) :
    List Interface → List String → Except PyErr (List (String × String))
  | [], _ => .ok []
  | itf :: rest, pcs =>
    match describe_interface resolve is_macF cfg pcs itf with
    | .error e => .error e
    | .ok (out, pcs') =>
      match auto_description_loop resolve is_macF cfg rest pcs' with
      | .error e => .error e
      | .ok outs => .ok (out ++ outs)

/-- `auto_description`: interfaces are processed in lexicographic name order
starting from an empty `port_channels` set. -/
def auto_description (resolve : String → Except PyErr String)
    (is_macF : String → Bool) (cfg : String → List String)
    (interfaces : List Interface) : Except PyErr (List (String × String)) :=
  auto_description_loop resolve is_macF cfg (sortByName interfaces) []

/-- Modelled from the spec: whether a raised error is caught by the
`except ValueError` at program entry.  The class hierarchy of netaddr's
`AddrFormatError` belongs to an external library, not to this repository;
the spec's error-handling design classifies an invalid-address failure as a
top-level value-shaped failure that the outermost boundary swallows, so
`addrFormatError` is value-shaped here and `indexError` is not. -/
def isValueError : PyErr → Bool
  | .addrFormatError => true
  | .indexError => false

/-- The `__main__` guard: `try: main() except ValueError: pass`.  A
value-shaped failure is swallowed (silent termination, result `ok none`);
any other failure escapes as a crash. -/
def main_boundary {α : Type} (r : Except PyErr α) : Except PyErr (Option α) :=
  match r with
  | .ok a => .ok (some a)
  | .error e => if isValueError e then .ok none else .error e

/-! ## General lemmas about the embedded operations -/

theorem contains_iff_mem (l : List String) (a : String) : l.contains a = true ↔ a ∈ l := by
  simp [List.contains, List.elem_iff]

/-! ## C7: staleness policy -/

/-- C7.  A cache object whose stored millisecond timestamp is exactly
24 hours + 1 second older than `now` is stale and (with the nonzero
timestamp a real store delivers) triggers a refresh; one exactly 24 hours
old or fresher is not stale and never triggers one; a missing object always
triggers one.  Staleness is strictly `now - timestamp > 24h`. -/
theorem spec_c7 (now ts : Int) (k : String) :
    is_24h_old now (now - 86401000) = true ∧
    (now - ts ≤ 86400000 → is_24h_old now ts = false) ∧
    (now - ts ≤ 86400000 → update_needed (some k) ts now = false) ∧
    (ts ≠ 0 → is_24h_old now ts = true → update_needed (some k) ts now = true) ∧
    update_needed none ts now = true := by
  refine ⟨?_, fun h => ?_, fun h => ?_, fun h0 h24 => ?_, rfl⟩
  · simp only [is_24h_old, SECONDS_PER_24H, decide_eq_true_eq]
    omega
  · simp only [is_24h_old, SECONDS_PER_24H, decide_eq_false_iff_not, not_lt]
    omega
  · have hf : is_24h_old now ts = false := by
      simp only [is_24h_old, SECONDS_PER_24H, decide_eq_false_iff_not, not_lt]
      omega
    simp [update_needed, hf]
  · simp [update_needed, h24, h0]

/-- Witness for C7 at `now = 100000000000`. -/
theorem spec_c7_witness :
    is_24h_old 100000000000 (100000000000 - 86401000) = true ∧
    is_24h_old 100000000000 (100000000000 - 86400000) = false ∧
    update_needed (some "key1") (100000000000 - 86400000) 100000000000 = false ∧
    update_needed (some "key1") (100000000000 - 86401000) 100000000000 = true ∧
    update_needed none (100000000000 - 86401000) 100000000000 = true := by
  have h := spec_c7 100000000000 (100000000000 - 86400000) "key1"
  have h' := spec_c7 100000000000 (100000000000 - 86401000) "key1"
  exact ⟨h.1, h.2.1 (by decide), h.2.2.1 (by decide),
    h'.2.2.2.1 (by decide) (h'.1), h'.2.2.2.2⟩

/-! ## C1: failed fetch over a stale existing cache -/

/-- C1 (evaluation of the code at the failing input).  With a stale existing
cache (`key1`, timestamp `1` ms, one stored binding) and a registry fetch
returning no content, `oui_list` at `now = 86400002` OVERWRITES the stored
configlet with the serialized empty download `"\x7b\x7d"` (which is a truthy
string even though the downloaded dict is empty) and returns the empty
mapping — the previously persisted data is erased, not kept. -/
theorem spec_c1_code_eval :
    oui_list 86400002 "newkey" none
        (some ⟨"key1", 1, jsonDumps [("AABBCC000000", "Acme")]⟩) =
      .ok ([], some ⟨"key1", 86400002, "\x7b\x7d"⟩) ∧
    jsonDumps [("AABBCC000000", "Acme")] ≠ "\x7b\x7d" ∧
    is_24h_old 86400002 1 = true := by
  exact ⟨rfl, by decide, by decide⟩

/-! ## C9: failed fetch with no existing cache object -/

/-- C9.  When no cache object exists and the fetch yields no content, the
refresh does not merely return an empty mapping: the serialized empty
download `"\x7b\x7d"` is truthy, so a brand-new configlet holding the empty
JSON object is persisted with the current timestamp, and any later run not
more than 24 hours after `now` finds the object fresh and refreshes
nothing (the store and the returned empty mapping are unchanged). -/
theorem spec_c9 (now : Int) (newKey : String) :
    oui_list now newKey none none =
      .ok ([], some ⟨newKey, now, "\x7b\x7d"⟩) ∧
    (∀ (now2 : Int) (k2 : String) (resp2 : Option String),
      now2 - now ≤ 86400000 →
      oui_list now2 k2 resp2 (some ⟨newKey, now, "\x7b\x7d"⟩) =
        .ok ([], some ⟨newKey, now, "\x7b\x7d"⟩)) := by
  constructor
  · rfl
  · intro now2 k2 resp2 h
    have hf : is_24h_old now2 now = false := by
      simp only [is_24h_old, SECONDS_PER_24H, decide_eq_false_iff_not, not_lt]
      omega
    simp [oui_list, configlet_exists, update_needed, hf, configlet_get, jsonLoads]

/-- Witness for C9 at `now = 0`, second run at `now2 = 86400000`. -/
theorem spec_c9_witness :
    oui_list 0 "k" none none = .ok ([], some ⟨"k", 0, "\x7b\x7d"⟩) ∧
    oui_list 86400000 "k2" (some "AA:BB:CC X") (some ⟨"k", 0, "\x7b\x7d"⟩) =
      .ok ([], some ⟨"k", 0, "\x7b\x7d"⟩) :=
  ⟨(spec_c9 0 "k").1, (spec_c9 0 "k").2 86400000 "k2" (some "AA:BB:CC X") (by decide)⟩

/-! ## C2: longest-prefix resolution order -/

/-- C2.  With external lookup enabled, `org_from_mac` masks the 48-bit value
with the 36-bit, then 28-bit, then 24-bit mask in strict order and returns
the organization of the first re-encoded prefix bound in the mapping, so a
shorter prefix's binding is never returned while a longer one is bound. -/
theorem spec_c2 (db : List (String × String)) (reg : Nat → Option String)
    (v : Nat) (hv : v < 2 ^ 48) :
    (∀ o, dictLookup db (macBare (v &&& OUI36_MASK)) = some o →
      org_from_mac EXTERNAL_OUI_LOOKUP db reg v = o ++ ", " ++ last_six v) ∧
    (dictLookup db (macBare (v &&& OUI36_MASK)) = none →
      ∀ o, dictLookup db (macBare (v &&& OUI28_MASK)) = some o →
        org_from_mac EXTERNAL_OUI_LOOKUP db reg v = o ++ ", " ++ last_six v) ∧
    (dictLookup db (macBare (v &&& OUI36_MASK)) = none →
      dictLookup db (macBare (v &&& OUI28_MASK)) = none →
      ∀ o, dictLookup db (macBare (v &&& OUI24_MASK)) = some o →
        org_from_mac EXTERNAL_OUI_LOOKUP db reg v = o ++ ", " ++ last_six v) := by
  refine ⟨fun o h36 => ?_, fun h36 o h28 => ?_, fun h36 h28 o h24 => ?_⟩ <;>
    simp [org_from_mac, ouiScan, EXTERNAL_OUI_LOOKUP, *]

/-- Witness for C2: the 36-bit prefix wins over the bound 24-bit prefix. -/
theorem spec_c2_witness :
    org_from_mac EXTERNAL_OUI_LOOKUP
        [("AABBCCDDE000", "Long"), ("AABBCC000000", "Short")]
        (fun _ => none) 0xAABBCCDDEEFF =
      "Long" ++ ", " ++ last_six 0xAABBCCDDEEFF :=
  (spec_c2 [("AABBCCDDE000", "Long"), ("AABBCC000000", "Short")]
    (fun _ => none) 0xAABBCCDDEEFF (by decide)).1 "Long" (by decide)

/-! ## C3: fallback when no external prefix matches -/

/-- C3 counterexample.  With external lookup enabled, an empty external
mapping and a static registry that KNOWS the address (it returns "Acme"),
the resolver still answers "Unknown": the static lookup lives in the
`else` branch of `if EXTERNAL_OUI_LOOKUP` and is never consulted, refuting
the claim that it is a fallback reached when no mask matches. -/
theorem spec_c3_counterexample :
    org_from_mac EXTERNAL_OUI_LOOKUP [] (fun _ => some "Acme") 0xAABBCCDDEEFF =
      "Unknown, DD:EE:FF" ∧
    (fun (_ : Nat) => some "Acme") 0xAABBCCDDEEFF ≠ none := by
  exact ⟨rfl, by decide⟩

/-- C3 as amended.  With external lookup enabled and no mask matching, the
organization is the literal "Unknown" directly, for every static registry
(the static lookup is not consulted); the static/offline lookup is used only
when external lookup is disabled, and only its failure yields "Unknown"
there. -/
theorem spec_c3_amended (db : List (String × String)) (reg : Nat → Option String)
    (v : Nat) (hv : v < 2 ^ 48)
    (h36 : dictLookup db (macBare (v &&& OUI36_MASK)) = none)
    (h28 : dictLookup db (macBare (v &&& OUI28_MASK)) = none)
    (h24 : dictLookup db (macBare (v &&& OUI24_MASK)) = none) :
    org_from_mac EXTERNAL_OUI_LOOKUP db reg v = "Unknown" ++ ", " ++ last_six v ∧
    (∀ o, reg v = some o → org_from_mac false db reg v = o ++ ", " ++ last_six v) ∧
    (reg v = none → org_from_mac false db reg v = "Unknown" ++ ", " ++ last_six v) := by
  refine ⟨?_, fun o ho => ?_, fun ho => ?_⟩ <;>
    simp [org_from_mac, ouiScan, EXTERNAL_OUI_LOOKUP, *] <;> try rfl

/-- Witness for the amended C3. -/
theorem spec_c3_amended_witness :
    org_from_mac EXTERNAL_OUI_LOOKUP [] (fun _ => some "Acme") 0xAABBCCDDEEFF =
      "Unknown" ++ ", " ++ last_six 0xAABBCCDDEEFF :=
  (spec_c3_amended [] (fun _ => some "Acme") 0xAABBCCDDEEFF (by decide)
    rfl rfl rfl).1

/-! ## C10: pattern-matching lines that abort the refresh -/

/-- C10.  Registry lines whose prefix has 4 or 5 colon-grouped octets do
match `OUI_PATTERN`, and processing them raises the address-format error,
aborting the entire refresh pass (both `download` and the enclosing
`oui_list` fail instead of skipping the line); 3-octet (zero-extended) and
6-octet prefixes are parsed and stored.  (2-octet prefixes cannot match the
pattern at all: the `\x7b2,5\x7d` repetition forces at least 3 octets.) -/
theorem spec_c10 :
    ouiMatch "AA:BB:CC:DD\tFourOctets more" = some ("AA:BB:CC:DD", "FourOctets") ∧
    download (some "AA:BB:CC:DD\tFourOctets more") = .error .addrFormatError ∧
    ouiMatch "AA:BB:CC:DD:EE\tFiveOctets" = some ("AA:BB:CC:DD:EE", "FiveOctets") ∧
    download (some "AA:BB:CC:DD:EE\tFiveOctets") = .error .addrFormatError ∧
    ouiMatch "AA:BB\tTwoOctets" = none ∧
    download (some "AA:BB:CC\tThree\nAA:BB:CC:DD:EE:FF\tSix") =
      .ok [("AABBCC000000", "Three"), ("AABBCCDDEEFF", "Six")] ∧
    oui_list 1 "k" (some "AA:BB:CC:DD\tFourOctets more") none =
      .error .addrFormatError := by
  exact ⟨rfl, rfl, rfl, rfl, rfl, rfl, rfl⟩

/-! ## C4: the placeholder merge rule -/

theorem dictLookup_append_some {db : List (String × String)} {k o : String}
    (h : dictLookup db k = some o) (l : List (String × String)) :
    dictLookup (db ++ l) k = some o := by
  induction db with
  | nil => simp [dictLookup] at h
  | cons e rest ih =>
    by_cases he : (e.1 == k) = true
    · simpa [dictLookup, he] using h
    · simp [dictLookup, he] at h ⊢
      exact ih h

theorem dictLookup_dictSet_self {db : List (String × String)} {k o : String}
    (h : dictLookup db k = some o) (v : String) :
    dictLookup (dictSet db k v) k = some v := by
  induction db with
  | nil => simp [dictLookup] at h
  | cons e rest ih =>
    by_cases he : (e.1 == k) = true
    · simp [dictLookup, dictSet, he]
    · simp [dictLookup, dictSet, he] at h ⊢
      simpa [dictSet] using ih h

theorem dictLookup_dictSet_ne {db : List (String × String)} {k' : String}
    (v : String) {k : String} (hne : k ≠ k') :
    dictLookup (dictSet db k' v) k = dictLookup db k := by
  induction db with
  | nil => rfl
  | cons e rest ih =>
    by_cases he : (e.1 == k') = true
    · have he1 : e.1 = k' := by simpa using he
      simp [dictLookup, dictSet, he, he1, Ne.symm hne]
      simpa [dictSet] using ih
    · by_cases hek : (e.1 == k) = true
      · simp [dictLookup, dictSet, he, hek]
      · simp [dictLookup, dictSet, he, hek]
        simpa [dictSet] using ih

theorem mergeEntry_keeps {db : List (String × String)} {k o : String}
    (h : dictLookup db k = some o) (hno : o ≠ "IEEERegi")
    (k' v : String) : dictLookup (mergeEntry db k' v) k = some o := by
  unfold mergeEntry
  rcases hl : dictLookup db k' with _ | ex
  · exact dictLookup_append_some h _
  · by_cases hp : (ex == "IEEERegi") = true
    · simp only [hp, if_true]
      by_cases hkk : k = k'
      · subst hkk
        rw [h] at hl
        have hoe : o = ex := by injection hl
        subst hoe
        exact absurd (by simpa using hp) hno
      · rw [dictLookup_dictSet_ne v hkk]; exact h
    · simp only [hp]
      simpa using h

theorem mergeEntry_replaces {db : List (String × String)} {k : String}
    (h : dictLookup db k = some "IEEERegi") (org : String) :
    dictLookup (mergeEntry db k org) k = some org := by
  unfold mergeEntry
  rw [h]
  simp only [beq_self_eq_true, if_true]
  exact dictLookup_dictSet_self h org

theorem foldl_merge_keeps (entries : List (String × String)) :
    ∀ (db : List (String × String)) (k o : String),
      dictLookup db k = some o → o ≠ "IEEERegi" →
      dictLookup (entries.foldl (fun d e => mergeEntry d e.1 e.2) db) k = some o := by
  induction entries with
  | nil => intro db k o h _; exact h
  | cons e rest ih =>
    intro db k o h hno
    exact ih _ _ _ (mergeEntry_keeps h hno e.1 e.2) hno

/-- C4.  During one parse/merge pass, a prefix bound to a specific (non
placeholder) organization is never overwritten by any later processed line;
a prefix bound to the exact placeholder "IEEERegi" is replaced by a later
line's organization; in particular merging "IEEERegi" then "Acme" for the
same prefix yields "Acme", and merging "Acme" then "IEEERegi" also yields
"Acme". -/
theorem spec_c4 :
    (∀ (later db : List (String × String)) (k o : String),
      dictLookup db k = some o → o ≠ "IEEERegi" →
      dictLookup (later.foldl (fun d e => mergeEntry d e.1 e.2) db) k = some o) ∧
    (∀ (db : List (String × String)) (k org : String),
      dictLookup db k = some "IEEERegi" →
      dictLookup (mergeEntry db k org) k = some org) ∧
    dictLookup (mergeEntry (mergeEntry [] "AABBCC000000" "IEEERegi")
      "AABBCC000000" "Acme") "AABBCC000000" = some "Acme" ∧
    dictLookup (mergeEntry (mergeEntry [] "AABBCC000000" "Acme")
      "AABBCC000000" "IEEERegi") "AABBCC000000" = some "Acme" :=
  ⟨fun later db k o h hno => foldl_merge_keeps later db k o h hno,
   fun _ k org h => mergeEntry_replaces h org, rfl, rfl⟩

/-- Witness for C4: a specific binding survives two later lines, and a
placeholder binding is replaced. -/
theorem spec_c4_witness :
    dictLookup
        ([("AABBCC000000", "IEEERegi"), ("K2", "V")].foldl
          (fun d e => mergeEntry d e.1 e.2) [("PF", "Acme")]) "PF" = some "Acme" ∧
    dictLookup (mergeEntry [("PF", "IEEERegi")] "PF" "New") "PF" = some "New" :=
  ⟨spec_c4.1 [("AABBCC000000", "IEEERegi"), ("K2", "V")] [("PF", "Acme")]
      "PF" "Acme" rfl (by decide),
   spec_c4.2.1 [("PF", "IEEERegi")] "PF" "New" rfl⟩

/-! ## C6: shape of stored cache keys -/

theorem isHexUpper_hexDigit (n : Nat) : isHexUpper (hexDigit (n % 16)) = true := by
  have h : n % 16 < 16 := Nat.mod_lt _ (by norm_num)
  set m := n % 16 with hm
  interval_cases m <;> decide

theorem macBare_shape (v : Nat) :
    (macBare v).data.length = 12 ∧ (macBare v).data.all isHexUpper = true ∧
      ':' ∉ (macBare v).data := by
  refine ⟨by simp [macBare], ?_, ?_⟩
  · rw [List.all_eq_true]
    intro x hx
    simp only [macBare] at hx
    rcases List.mem_map.mp hx with ⟨i, _, rfl⟩
    exact isHexUpper_hexDigit _
  · intro hmem
    have hall : (macBare v).data.all isHexUpper = true := by
      rw [List.all_eq_true]
      intro x hx
      simp only [macBare] at hx
      rcases List.mem_map.mp hx with ⟨i, _, rfl⟩
      exact isHexUpper_hexDigit _
    have := (List.all_eq_true.mp hall) ':' hmem
    simp [isHexUpper] at this

theorem mem_mergeEntry {e' : String × String} {db : List (String × String)}
    {k v : String} (h : e' ∈ mergeEntry db k v) : e'.1 = k ∨ e' ∈ db := by
  unfold mergeEntry at h
  rcases hl : dictLookup db k with _ | ex <;> rw [hl] at h <;> dsimp only at h
  · rcases List.mem_append.mp h with hm | hm
    · exact Or.inr hm
    · left
      have : e' = (k, v) := by simpa using hm
      simp [this]
  · by_cases hp : (ex == "IEEERegi") = true
    · rw [if_pos hp] at h
      rcases List.mem_map.mp h with ⟨a, ha, rfl⟩
      by_cases hak : (a.1 == k) = true
      · simp [hak]
      · simp [hak]
        exact Or.inr ha
    · rw [if_neg hp] at h
      exact Or.inr h

theorem processEntries_key_invariant (P : String → Prop) (hP : ∀ v, P (macBare v)) :
    ∀ (entries db db' : List (String × String)),
      (∀ e ∈ db, P e.1) → processEntries entries db = .ok db' → ∀ e ∈ db', P e.1 := by
  intro entries
  induction entries with
  | nil =>
    intro db db' hdb h
    simp only [processEntries, Except.ok.injEq] at h
    subst h
    exact hdb
  | cons p rest ih =>
    intro db db' hdb h
    rcases p with ⟨oui, org⟩
    simp only [processEntries] at h
    rcases hE : euiParse (if oui.length == 8 then oui ++ ":00:00:00" else oui) with e | v <;>
      rw [hE] at h
    · simp at h
    · refine ih _ _ ?_ h
      intro e he
      rcases mem_mergeEntry he with h1 | h1
      · rw [h1]; exact hP v
      · exact hdb e h1

theorem splitChar_ne_nil (sep : Char) : ∀ l, splitChar sep l ≠ [] := by
  intro l
  induction l with
  | nil => simp [splitChar]
  | cons c rest ih =>
    by_cases hc : c = sep
    · simp [splitChar, hc]
    · simp only [splitChar, if_neg hc]
      rcases hE : splitChar sep rest with _ | ⟨g, gs⟩
      · exact absurd hE ih
      · simp

theorem splitChar_append (sep : Char) :
    ∀ xs ys, splitChar sep (xs ++ sep :: ys) = splitChar sep xs ++ splitChar sep ys := by
  intro xs ys
  induction xs with
  | nil => simp [splitChar]
  | cons c xs ih =>
    by_cases hc : c = sep
    · subst hc
      simp [splitChar, ih]
    · rcases hE : splitChar sep xs with _ | ⟨g, gs⟩
      · exact absurd hE (splitChar_ne_nil sep xs)
      · simp only [List.cons_append, splitChar, if_neg hc, List.append_eq]
        rw [ih, hE]
        simp

theorem euiParse_append_zeros (s : String) (v : Nat)
    (h : euiParse (s ++ ":00:00:00") = .ok v) : v % 16777216 = 0 := by
  simp only [euiParse, splitColon] at h
  have hdata : (s ++ ":00:00:00").data =
      s.data ++ ':' :: ['0', '0', ':', '0', '0', ':', '0', '0'] := by
    rw [String.data_append]
  rw [hdata, splitChar_append] at h
  have hz : splitChar ':' ['0', '0', ':', '0', '0', ':', '0', '0'] =
      [['0', '0'], ['0', '0'], ['0', '0']] := rfl
  rw [hz] at h
  split at h
  · have hv : (splitChar ':' s.data ++ [['0', '0'], ['0', '0'], ['0', '0']]).foldl
        (fun a g => a * 256 + octVal g) 0 = v := by
      injection h
    rw [List.foldl_append] at hv
    simp only [List.foldl_cons, List.foldl_nil] at hv
    have ho : octVal ['0', '0'] = 0 := rfl
    rw [ho] at hv
    omega
  · simp at h

theorem macBare_mod_zeros (v : Nat) (h : v % 16777216 = 0) :
    ∃ c1 c2 c3 c4 c5 c6, macBare v =
      String.mk [c1, c2, c3, c4, c5, c6, '0', '0', '0', '0', '0', '0'] := by
  have e20 : (v >>> 20) % 16 = 0 := by rw [Nat.shiftRight_eq_div_pow]; omega
  have e16 : (v >>> 16) % 16 = 0 := by rw [Nat.shiftRight_eq_div_pow]; omega
  have e12 : (v >>> 12) % 16 = 0 := by rw [Nat.shiftRight_eq_div_pow]; omega
  have e8 : (v >>> 8) % 16 = 0 := by rw [Nat.shiftRight_eq_div_pow]; omega
  have e4 : (v >>> 4) % 16 = 0 := by rw [Nat.shiftRight_eq_div_pow]; omega
  have e0 : v % 16 = 0 := by omega
  refine ⟨hexDigit ((v >>> 44) % 16), hexDigit ((v >>> 40) % 16),
    hexDigit ((v >>> 36) % 16), hexDigit ((v >>> 32) % 16),
    hexDigit ((v >>> 28) % 16), hexDigit ((v >>> 24) % 16), ?_⟩
  unfold macBare
  rw [show List.range 12 = [0,1,2,3,4,5,6,7,8,9,10,11] from rfl]
  simp only [List.map_cons, List.map_nil]
  norm_num
  rw [e20, e16, e12, e8, e4, e0]
  rfl

/-- C6 counterexample.  A refresh that parses the registry line
`"AA:BB:CC\tAcme corp stuff"` stores the key `"AABBCC000000"`: the
`netaddr.mac_bare` dialect strips the separators, so the stored key is NOT a
colon-separated MAC string as the claim states. -/
theorem spec_c6_counterexample :
    download (some "AA:BB:CC\tAcme corp stuff") = .ok [("AABBCC000000", "Acme")] ∧
    ':' ∉ ("AABBCC000000" : String).data ∧
    ("AABBCC000000" : String) ≠ "AA:BB:CC:00:00:00" :=
  ⟨rfl, by decide, by decide⟩

/-- C6 as amended.  Every key stored by a refresh is a full-width BARE
(separator-free) MAC string: twelve uppercase hexadecimal digits with no
colon; a parsed prefix of exactly 3 octets (string length 8) is zero-extended
with `":00:00:00"` to 6 octets before being encoded and stored, so its last
six stored digits are zeros. -/
theorem spec_c6_amended :
    (∀ (resp : Option String) (db2 : List (String × String)),
      download resp = .ok db2 → ∀ e ∈ db2,
        e.1.data.length = 12 ∧ e.1.data.all isHexUpper = true ∧ ':' ∉ e.1.data) ∧
    (∀ (s org : String) (rest db : List (String × String)) (v : Nat),
      s.length = 8 → euiParse (s ++ ":00:00:00") = .ok v →
      processEntries ((s, org) :: rest) db =
        processEntries rest (mergeEntry db (macBare v) org) ∧
      ∃ c1 c2 c3 c4 c5 c6, macBare v =
        String.mk [c1, c2, c3, c4, c5, c6, '0', '0', '0', '0', '0', '0']) := by
  constructor
  · intro resp db2 h e he
    have inv := processEntries_key_invariant
      (fun s2 => s2.data.length = 12 ∧ s2.data.all isHexUpper = true ∧ ':' ∉ s2.data)
      (fun v => macBare_shape v)
    rcases resp with _ | r
    · simp only [download, Except.ok.injEq] at h
      subst h
      exact absurd he (List.not_mem_nil e)
    · by_cases hr : (r == "") = true
      · simp only [download, hr, if_true, Except.ok.injEq] at h
        subst h
        exact absurd he (List.not_mem_nil e)
      · simp only [download, hr, Bool.false_eq_true, if_false] at h
        exact inv _ [] db2 (by intro x hx; exact absurd hx (List.not_mem_nil x)) h e he
  · intro s org rest db v hlen hE
    refine ⟨?_, macBare_mod_zeros v (euiParse_append_zeros s v hE)⟩
    have hl : (s.length == 8) = true := by simp [hlen]
    simp only [processEntries, hl, if_true, hE]

/-- Witness for the amended C6: the stored key of the 3-octet line
`AA:BB:CC` is the 12-digit bare `AABBCC000000`, ending in six zeros. -/
theorem spec_c6_amended_witness :
    (("AABBCC000000" : String).data.length = 12 ∧
      ("AABBCC000000" : String).data.all isHexUpper = true ∧
      ':' ∉ ("AABBCC000000" : String).data) ∧
    (processEntries [("AA:BB:CC", "Acme")] [] =
        processEntries [] (mergeEntry [] (macBare 187723558158336) "Acme") ∧
      ∃ c1 c2 c3 c4 c5 c6, macBare 187723558158336 =
        String.mk [c1, c2, c3, c4, c5, c6, '0', '0', '0', '0', '0', '0']) :=
  ⟨spec_c6_amended.1 (some "AA:BB:CC\tAcme corp") [("AABBCC000000", "Acme")] rfl
      ("AABBCC000000", "Acme") (by decide),
    spec_c6_amended.2 "AA:BB:CC" "Acme" [] [] 187723558158336 rfl rfl⟩

/-! ## C5: one description line per port-channel per run -/

theorem countP_emitFinal (name d pc : String) (h : name ≠ pc) :
    List.countP (fun e => e.1 == pc) (emitFinal name d) = 0 := by
  unfold emitFinal
  by_cases hd : (d == "") = true
  · simp [hd]
  · simp [hd, List.countP_cons, h]

theorem notSkip_name (n pc : String)
    (hc : (!(strStartsWith n "Ethernet") && !(strStartsWith n "Management")) = false)
    (h1 : strStartsWith pc "Ethernet" = false)
    (h2 : strStartsWith pc "Management" = false) : n ≠ pc := by
  intro he
  subst he
  rcases Bool.and_eq_false_iff.mp hc with hx | hx <;> simp_all

theorem count_new_pc (pcName short d name pc : String) (pcs : List String)
    (hne : name ≠ pc) (hnc : ¬pcs.contains pcName = true) :
    List.countP (fun e => e.1 == pc) ([(pcName, short)] ++ emitFinal name d) +
      (if pc ∈ pcName :: pcs then 0 else 1) ≤ (if pc ∈ pcs then 0 else 1) := by
  have hn : pcName ∉ pcs := fun hm => hnc ((contains_iff_mem pcs pcName).mpr hm)
  by_cases hpp : pc = pcName
  · subst hpp
    simp [List.countP_append, List.countP_cons, countP_emitFinal _ _ _ hne, hn]
  · simp [List.countP_append, List.countP_cons, countP_emitFinal _ _ _ hne,
      hpp, Ne.symm hpp, List.mem_cons]

theorem describe_interface_count (resolve : String → Except PyErr String)
    (is_macF : String → Bool) (cfg : String → List String)
    (pcs : List String) (itf : Interface) (pc : String)
    (h1 : strStartsWith pc "Ethernet" = false)
    (h2 : strStartsWith pc "Management" = false)
    {out : List (String × String)} {pcs' : List String}
    (h : describe_interface resolve is_macF cfg pcs itf = .ok (out, pcs')) :
    List.countP (fun e => e.1 == pc) out + (if pc ∈ pcs' then 0 else 1) ≤
      (if pc ∈ pcs then 0 else 1) := by
  unfold describe_interface at h
  split at h
  case isTrue =>
    simp only [Except.ok.injEq, Prod.mk.injEq] at h
    obtain ⟨rfl, rfl⟩ := h
    simp
  case isFalse hcond =>
    have hne : itf.name ≠ pc := notSkip_name _ _ (by simpa using hcond) h1 h2
    dsimp only at h
    repeat' split at h
    all_goals try exact (Except.noConfusion h)
    all_goals
      (simp only [Except.ok.injEq, Prod.mk.injEq] at h
       obtain ⟨rfl, rfl⟩ := h)
    all_goals first
      | (simp; done)
      | (simp [countP_emitFinal _ _ _ hne]; done)
      | (refine count_new_pc _ _ _ _ _ _ hne ?_; assumption)

theorem auto_description_loop_count (resolve : String → Except PyErr String)
    (is_macF : String → Bool) (cfg : String → List String) (pc : String)
    (h1 : strStartsWith pc "Ethernet" = false)
    (h2 : strStartsWith pc "Management" = false) :
    ∀ (l : List Interface) (pcs : List String) (out : List (String × String)),
      auto_description_loop resolve is_macF cfg l pcs = .ok out →
      List.countP (fun e => e.1 == pc) out ≤ (if pc ∈ pcs then 0 else 1) := by
  intro l
  induction l with
  | nil =>
    intro pcs out h
    simp only [auto_description_loop, Except.ok.injEq] at h
    subst h
    simp
  | cons itf rest ih =>
    intro pcs out h
    simp only [auto_description_loop] at h
    rcases hd : describe_interface resolve is_macF cfg pcs itf with e | pr <;> rw [hd] at h
    · exact (Except.noConfusion h)
    · rcases pr with ⟨out1, pcs2⟩
      dsimp only at h
      rcases hl : auto_description_loop resolve is_macF cfg rest pcs2 with e | outs <;>
        rw [hl] at h
      · exact (Except.noConfusion h)
      · simp only [Except.ok.injEq] at h
        subst h
        rw [List.countP_append]
        have hstep := describe_interface_count resolve is_macF cfg pcs itf pc h1 h2 hd
        have hrest := ih pcs2 outs hl
        by_cases hm2 : pc ∈ pcs2 <;> by_cases hm : pc ∈ pcs
        · rw [if_pos hm2, if_pos hm] at hstep
          rw [if_pos hm2] at hrest
          rw [if_pos hm]
          omega
        · rw [if_pos hm2, if_neg hm] at hstep
          rw [if_pos hm2] at hrest
          rw [if_neg hm]
          omega
        · rw [if_neg hm2, if_pos hm] at hstep
          rw [if_neg hm2] at hrest
          rw [if_pos hm]
          omega
        · rw [if_neg hm2, if_neg hm] at hstep
          rw [if_neg hm2] at hrest
          rw [if_neg hm]
          omega

/-- C5.  In every successful run of the synthesizer, a port-channel (any
emission target that is not itself an Ethernet/Management interface name)
receives at most one emitted description line: the `port_channels` set
records an assigned port-channel and suppresses re-emission for every later
member interface, whatever the neighbors report. -/
theorem spec_c5 (resolve : String → Except PyErr String)
    (is_macF : String → Bool) (cfg : String → List String)
    (interfaces : List Interface) (pc : String) (out : List (String × String))
    (h1 : strStartsWith pc "Ethernet" = false)
    (h2 : strStartsWith pc "Management" = false)
    (h : auto_description resolve is_macF cfg interfaces = .ok out) :
    List.countP (fun e => e.1 == pc) out ≤ 1 := by
  have hx := auto_description_loop_count resolve is_macF cfg pc h1 h2
    (sortByName interfaces) [] out h
  simpa using hx

/-- Witness for C5: two member interfaces of `Port-Channel1`, each with the
same single LLDP hostname neighbor, yield exactly one `Port-Channel1` line. -/
theorem spec_c5_witness :
    auto_description (fun _ => .ok "X") (fun _ => false) (fun _ => [])
      [⟨"Ethernet2", [⟨some "host1.example.com", "ch",
          ⟨"interfaceName", "Ethernet3", "d"⟩⟩], [], some "Member of Port-Channel1"⟩,
       ⟨"Ethernet1", [⟨some "host1.example.com", "ch",
          ⟨"interfaceName", "Ethernet3", "d"⟩⟩], [], some "Member of Port-Channel1"⟩] =
      .ok [("Port-Channel1", "host1"), ("Ethernet1", "host1, Ethernet3"),
        ("Ethernet2", "host1, Ethernet3")] ∧
    List.countP (fun e => e.1 == "Port-Channel1")
      [("Port-Channel1", "host1"), ("Ethernet1", "host1, Ethernet3"),
        ("Ethernet2", "host1, Ethernet3")] ≤ 1 :=
  ⟨rfl,
    spec_c5 (fun _ => .ok "X") (fun _ => false) (fun _ => [])
      [⟨"Ethernet2", [⟨some "host1.example.com", "ch",
          ⟨"interfaceName", "Ethernet3", "d"⟩⟩], [], some "Member of Port-Channel1"⟩,
       ⟨"Ethernet1", [⟨some "host1.example.com", "ch",
          ⟨"interfaceName", "Ethernet3", "d"⟩⟩], [], some "Member of Port-Channel1"⟩]
      "Port-Channel1"
      [("Port-Channel1", "host1"), ("Ethernet1", "host1, Ethernet3"),
        ("Ethernet2", "host1, Ethernet3")] rfl rfl rfl⟩

/-! ## C8: invalid addresses propagate, then are swallowed at the top -/

theorem describe_interface_macTable (resolve : String → Except PyErr String)
    (is_macF : String → Bool) (pcs : List String) (s : String) :
    describe_interface resolve is_macF (fun _ => []) pcs
        ⟨"Ethernet1", [], [s], none⟩ =
      match resolve s with
      | .error e => .error e
      | .ok d => .ok (emitFinal "Ethernet1" d, pcs) := rfl

/-- C8.  For every string the address parser rejects, `org_from_mac` fails
with the invalid-address error before any lookup; the error is not caught in
`auto_description` (here reached through the MAC-table branch, the one place
the resolver can receive an unvalidated string) and propagates out of the
interface loop; at the `__main__` boundary the value-shaped failure is
swallowed, terminating silently with no output. -/
theorem spec_c8 (parse : String → Option Nat) (db : List (String × String))
    (reg : Nat → Option String) (s : String) (h : parse s = none) :
    org_from_mac_str parse EXTERNAL_OUI_LOOKUP db reg s = .error .addrFormatError ∧
    auto_description (org_from_mac_str parse EXTERNAL_OUI_LOOKUP db reg)
        (is_mac parse) (fun _ => []) [⟨"Ethernet1", [], [s], none⟩] =
      .error .addrFormatError ∧
    main_boundary (auto_description (org_from_mac_str parse EXTERNAL_OUI_LOOKUP db reg)
        (is_mac parse) (fun _ => []) [⟨"Ethernet1", [], [s], none⟩]) = .ok none := by
  have h1 : org_from_mac_str parse EXTERNAL_OUI_LOOKUP db reg s =
      .error .addrFormatError := by
    simp [org_from_mac_str, h]
  have h2 : auto_description (org_from_mac_str parse EXTERNAL_OUI_LOOKUP db reg)
      (is_mac parse) (fun _ => []) [⟨"Ethernet1", [], [s], none⟩] =
      .error .addrFormatError := by
    unfold auto_description
    rw [show sortByName [(⟨"Ethernet1", [], [s], none⟩ : Interface)] =
      [⟨"Ethernet1", [], [s], none⟩] from rfl]
    simp only [auto_description_loop, describe_interface_macTable, h1]
  refine ⟨h1, h2, ?_⟩
  rw [h2]
  rfl

/-- Witness for C8 with a parser that rejects the concrete string
`"bad-mac"`. -/
theorem spec_c8_witness :
    org_from_mac_str (fun _ => none) EXTERNAL_OUI_LOOKUP [] (fun _ => none)
      "bad-mac" = .error .addrFormatError ∧
    auto_description (org_from_mac_str (fun _ => none) EXTERNAL_OUI_LOOKUP []
        (fun _ => none)) (is_mac (fun _ => none)) (fun _ => [])
      [⟨"Ethernet1", [], ["bad-mac"], none⟩] = .error .addrFormatError ∧
    main_boundary (auto_description (org_from_mac_str (fun _ => none)
        EXTERNAL_OUI_LOOKUP [] (fun _ => none)) (is_mac (fun _ => none))
        (fun _ => []) [⟨"Ethernet1", [], ["bad-mac"], none⟩]) = .ok none :=
  spec_c8 (fun _ => none) [] (fun _ => none) "bad-mac" rfl

end AutoDesc
